import Mathlib

/-!
Verification of the uber-sync pipeline (SFTP trip-export ingestion,
record transformation, Google-Sheets push and Firestore upsert).

The definitions below are shallow embeddings of the TypeScript sources:
`src/src/index.ts` (Sheets variant), the Firestore variant with numeric
coercion (`saveTripsToFirestore`), and the Firestore variant with manual
batch chunking (`sendToFirestore`).  JavaScript runtime builtins used by
the sources (String.prototype.trim, toLowerCase, includes, padStart,
replace, Number, Date.prototype.setDate) and the csv-parse library call
are not part of the repository; they are modelled from the spec where
noted.
-/

namespace UberSync

/-! ## Models of the JavaScript string builtins used by the sources -/

/-- Modelled from the spec: JS String.prototype.trim — strip leading and
trailing whitespace characters. -/
def jsTrim (s : String) : String :=
  String.mk (((s.data.dropWhile Char.isWhitespace).reverse.dropWhile
    Char.isWhitespace).reverse)

/-- Modelled from the spec: JS String.prototype.toLowerCase (ASCII range,
which covers the header-detection substring). -/
def jsToLower (s : String) : String :=
  String.mk (s.data.map Char.toLower)

/-- pat is a prefix of the character list. -/
def prefixChars : List Char → List Char → Bool
  | [], _ => true
  | _ :: _, [] => false
  | p :: ps, c :: cs => p == c && prefixChars ps cs

/-- pat occurs somewhere in the character list. -/
def hasSubstr : List Char → List Char → Bool
  | pat, [] => pat.isEmpty
  | pat, c :: cs => prefixChars pat (c :: cs) || hasSubstr pat cs

/-- Modelled from the spec: JS String.prototype.includes — substring
containment. -/
def jsIncludes (s pat : String) : Bool :=
  hasSubstr pat.data s.data

/-- Modelled from the spec: JS String.prototype.padStart — left-pad with
the fill character up to the target length. -/
def jsPadStart (s : String) (len : Nat) (c : Char) : String :=
  String.mk (List.replicate (len - s.length) c) ++ s

/-- Replace the first comma by a dot in a character list. -/
def replaceFirstComma : List Char → List Char
  | [] => []
  | c :: cs => if c = ',' then '.' :: cs else c :: replaceFirstComma cs

/-- Modelled from the spec: the source call `.replace(",", ".")` — JS
String.prototype.replace with a plain-string pattern replaces only the
first occurrence. -/
def jsReplaceCommaDot (s : String) : String :=
  String.mk (replaceFirstComma s.data)

/-! ## Data model

A parsed row (`Trip` in the sources) is a string-keyed record; we embed
it as an association list from column name to string value. -/

abbrev Trip := List (String × String)

/-- Property access `trip[key]` on a `Trip`: `some v` when the key is
present, `none` for JS `undefined`. -/
def getField : Trip → String → Option String
  | [], _ => none
  | (k, v) :: t, key => if k = key then some v else getField t key

/-- The JS idiom `trip[key] || ""`: missing keys and the empty string
both yield the empty string. -/
def fieldOrEmpty (t : Trip) (key : String) : String :=
  (getField t key).getD ""

/-- The JS idiom `trip[key]?.trim() || ""` used by the transformer. -/
def trimOrEmpty (o : Option String) : String :=
  match o with
  | none => ""
  | some v => jsTrim v

/-! ## Record Transformer (Firestore variants, part_001 / part_002)

`const EXCLUDED_GROUPS = ['ADMINISTRATIVO', 'COMERCIAL'];` -/

def EXCLUDED_GROUPS : List String := ["ADMINISTRATIVO", "COMERCIAL"]

/-- The filter predicate of `filterTrips`:
`const grupo = trip['Grupo']?.trim() || ''; return !EXCLUDED_GROUPS.includes(grupo);` -/
def keepTrip (t : Trip) : Bool :=
  !(EXCLUDED_GROUPS.contains (trimOrEmpty (getField t "Grupo")))

/-- The projection of `filterTrips` (part_001 lines 59-79, identical in
part_002): a fixed 14-field output record, `nomeCompleto` derived from
the trimmed name fields, every other field defaulted to the empty
string. -/
def projectTrip (t : Trip) : Trip :=
  let nome := trimOrEmpty (getField t "Nome")
  let sobrenome := trimOrEmpty (getField t "Sobrenome")
  let nomeCompleto := jsTrim (nome ++ " " ++ sobrenome)
  [("ID da viagem/Uber Eats", fieldOrEmpty t "ID da viagem/Uber Eats"),
   ("Data da solicitação (local)", fieldOrEmpty t "Data da solicitação (local)"),
   ("Hora da solicitação (local)", fieldOrEmpty t "Hora da solicitação (local)"),
   ("Hora de chegada (local)", fieldOrEmpty t "Hora de chegada (local)"),
   ("Nome Completo", nomeCompleto),
   ("Grupo", fieldOrEmpty t "Grupo"),
   ("Serviço", fieldOrEmpty t "Serviço"),
   ("Cidade", fieldOrEmpty t "Cidade"),
   ("País", fieldOrEmpty t "País"),
   ("Distância (mi)", fieldOrEmpty t "Distância (mi)"),
   ("Duração (min)", fieldOrEmpty t "Duração (min)"),
   ("Endereço de partida", fieldOrEmpty t "Endereço de partida"),
   ("Endereço de destino", fieldOrEmpty t "Endereço de destino"),
   ("Valor total: BRL", fieldOrEmpty t "Valor total: BRL")]

/-- `filterTrips` of the Firestore variants (part_001 lines 53-81,
part_002 lines 85-113): exclusion filter followed by the projection. -/
def filterTrips (trips : List Trip) : List Trip :=
  (trips.filter keepTrip).map projectTrip

/-- The declared output schema of the document-store variant: the key
list of the record literal built by `filterTrips`. -/
def OUTPUT_FIELDS : List String :=
  ["ID da viagem/Uber Eats", "Data da solicitação (local)",
   "Hora da solicitação (local)", "Hora de chegada (local)",
   "Nome Completo", "Grupo", "Serviço", "Cidade", "País",
   "Distância (mi)", "Duração (min)", "Endereço de partida",
   "Endereço de destino", "Valor total: BRL"]

/-! ## Record Transformer properties -/

theorem trimOrEmpty_eq_trim_getD (o : Option String) :
    trimOrEmpty o = jsTrim (o.getD "") := by
  cases o <;> rfl

theorem projectTrip_keys (t : Trip) :
    (projectTrip t).map Prod.fst = OUTPUT_FIELDS := rfl

theorem getField_projectTrip_plain (t : Trip) (c : String)
    (hc : c ∈ OUTPUT_FIELDS) (hne : c ≠ "Nome Completo") :
    getField (projectTrip t) c = some (fieldOrEmpty t c) := by
  simp only [OUTPUT_FIELDS, List.mem_cons, List.not_mem_nil, or_false] at hc
  rcases hc with rfl | rfl | rfl | rfl | rfl | rfl | rfl | rfl | rfl | rfl | rfl | rfl | rfl | rfl
  all_goals first
    | exact absurd rfl hne
    | rfl

theorem getField_projectTrip_fullName (t : Trip) :
    getField (projectTrip t) "Nome Completo" =
      some (jsTrim (trimOrEmpty (getField t "Nome") ++ " " ++
        trimOrEmpty (getField t "Sobrenome"))) := rfl

/-- C4: for every input record sequence the transformer output is no
longer than the input, and in the exclusion-filter variant no output
record carries a group value belonging to the configured exclusion
set. -/
theorem c4_transformer_shrinks_and_excludes (trips : List Trip) :
    (filterTrips trips).length ≤ trips.length ∧
    ∀ r ∈ filterTrips trips, fieldOrEmpty r "Grupo" ∉ EXCLUDED_GROUPS := by
  constructor
  · calc (filterTrips trips).length = (trips.filter keepTrip).length := by
          simp [filterTrips]
      _ ≤ trips.length := List.length_filter_le _ _
  · intro r hr
    simp only [filterTrips, List.mem_map, List.mem_filter] at hr
    obtain ⟨t, ⟨ht, hk⟩, rfl⟩ := hr
    have hg : fieldOrEmpty (projectTrip t) "Grupo" = fieldOrEmpty t "Grupo" := rfl
    rw [hg]
    intro hmem
    rcases ho : getField t "Grupo" with _ | v
    · simp only [fieldOrEmpty, ho, Option.getD_none] at hmem
      exact absurd hmem (by decide)
    · simp only [fieldOrEmpty, ho, Option.getD_some] at hmem
      simp only [EXCLUDED_GROUPS, List.mem_cons, List.not_mem_nil, or_false] at hmem
      have hfalse : keepTrip t = false := by
        unfold keepTrip
        rw [ho]
        rcases hmem with rfl | rfl <;> decide
      rw [hk] at hfalse
      exact absurd hfalse (by decide)

def demoTrips : List Trip :=
  [[("Grupo", "ADMINISTRATIVO"), ("Nome", "Ana")],
   [("Grupo", "OPERACIONAL"), ("Nome", "Bea")]]

theorem c4_transformer_shrinks_and_excludes_witness :
    (filterTrips demoTrips).length ≤ demoTrips.length ∧
    fieldOrEmpty (projectTrip [("Grupo", "OPERACIONAL"), ("Nome", "Bea")])
      "Grupo" ∉ EXCLUDED_GROUPS :=
  ⟨(c4_transformer_shrinks_and_excludes demoTrips).1,
   (c4_transformer_shrinks_and_excludes demoTrips).2 _ (by decide)⟩

/-- C5: the projection is total — every declared output field is present
(the key list of every output record is exactly the declared schema),
plain fields default to the empty string when the source lacks them, and
the derived full-name field is the trimmed single-space concatenation of
the trimmed first and last name source fields. -/
theorem c5_projection_total (t : Trip) :
    (projectTrip t).map Prod.fst = OUTPUT_FIELDS ∧
    (∀ c ∈ OUTPUT_FIELDS, c ≠ "Nome Completo" → getField t c = none →
      getField (projectTrip t) c = some "") ∧
    getField (projectTrip t) "Nome Completo" =
      some (jsTrim (jsTrim ((getField t "Nome").getD "") ++ " " ++
        jsTrim ((getField t "Sobrenome").getD ""))) := by
  refine ⟨rfl, ?_, ?_⟩
  · intro c hc hne hnone
    rw [getField_projectTrip_plain t c hc hne]
    simp [fieldOrEmpty, hnone]
  · rw [getField_projectTrip_fullName t, trimOrEmpty_eq_trim_getD,
      trimOrEmpty_eq_trim_getD]

def demoNameTrip : Trip :=
  [("ID da viagem/Uber Eats", "T1"), ("Nome", " Ana "), ("Sobrenome", "Silva")]

theorem c5_projection_total_witness :
    (projectTrip demoNameTrip).map Prod.fst = OUTPUT_FIELDS ∧
    getField (projectTrip demoNameTrip) "Grupo" = some "" ∧
    getField (projectTrip demoNameTrip) "Nome Completo" = some "Ana Silva" :=
  ⟨(c5_projection_total demoNameTrip).1,
   (c5_projection_total demoNameTrip).2.1 "Grupo" (by decide) (by decide)
     (by decide),
   ((c5_projection_total demoNameTrip).2.2).trans (by decide)⟩

def paddedAdminTrip : Trip :=
  [("ID da viagem/Uber Eats", "T1"), ("Grupo", " ADMINISTRATIVO ")]

def paddedOperTrip : Trip :=
  [("ID da viagem/Uber Eats", "T2"), ("Grupo", " OPERACIONAL ")]

/-- C9: the exclusion check is made on the whitespace-trimmed group
value while the emitted group field keeps the raw source value: a record
whose group is an excluded value surrounded by whitespace is dropped
even though its raw group string is not in the exclusion set, and a
surviving record keeps its surrounding whitespace in the output. -/
theorem c9_trim_decides_raw_emitted :
    (∀ t : Trip,
      keepTrip t =
        !(EXCLUDED_GROUPS.contains (jsTrim ((getField t "Grupo").getD "")))) ∧
    (∀ t : Trip,
      getField (projectTrip t) "Grupo" = some ((getField t "Grupo").getD "")) ∧
    filterTrips [paddedAdminTrip] = [] ∧
    " ADMINISTRATIVO " ∉ EXCLUDED_GROUPS ∧
    (filterTrips [paddedOperTrip]).map (fun r => getField r "Grupo") =
      [some " OPERACIONAL "] := by
  refine ⟨?_, ?_, by decide, by decide, by decide⟩
  · intro t
    unfold keepTrip
    rw [trimOrEmpty_eq_trim_getD]
  · intro t
    rfl

/-! ## Tabular Ingester (`processCSVFile`, identical in all variants)

`content.split('\n')`, then the first line whose lower-cased text
contains the trip-ID header substring starts the table; if none exists
the result is the empty record list.  The retained lines are parsed as
semicolon-delimited quoted CSV with the first row as header, fields
trimmed and empty lines skipped. -/

def tripHeaderPat : String := "id da viagem/uber eats"

/-- Split a line on semicolons outside double quotes, dropping the
quote characters. -/
def splitSemiAux : Bool → List Char → List Char → List (List Char)
  | _, cur, [] => [cur.reverse]
  | inQ, cur, c :: cs =>
    if c = '"' then splitSemiAux (!inQ) cur cs
    else if c = ';' then
      if inQ then splitSemiAux inQ (c :: cur) cs
      else cur.reverse :: splitSemiAux false [] cs
    else splitSemiAux inQ (c :: cur) cs

def splitSemi (s : String) : List String :=
  (splitSemiAux false [] s.data).map String.mk

/-- Modelled from the spec: one line of the csv-parse call with
delimiter semicolon, quoted-field support and per-field trimming. -/
def parseFields (line : String) : List String :=
  (splitSemi line).map jsTrim

abbrev RawRecord := List (String × String)

/-- Modelled from the spec: the csv-parse row loop with `columns: true` —
each data row is keyed by the header columns; an inconsistent column
count is a fatal parse error. -/
def mapRows (cols : List String) : List String → Except String (List RawRecord)
  | [] => Except.ok []
  | r :: rs =>
    let fs := parseFields r
    if fs.length = cols.length then
      match mapRows cols rs with
      | Except.ok recs => Except.ok (cols.zip fs :: recs)
      | Except.error e => Except.error e
    else Except.error "Invalid Record Length"

/-- Modelled from the spec: the csv-parse call — skip empty lines, first
remaining row is the header, remaining rows become records. -/
def parseTable (ls : List String) : Except String (List RawRecord) :=
  match ls.filter (fun l => !(l == "")) with
  | [] => Except.ok []
  | header :: rows => mapRows (parseFields header) rows

/-- Modelled from the spec: JS Array.prototype.findIndex, with `none`
for the -1 not-found result. -/
def findIndexJs (p : String → Bool) : List String → Option Nat
  | [] => none
  | l :: ls => if p l then some 0 else (findIndexJs p ls).map (· + 1)

/-- The header-detection predicate of `processCSVFile`:
`l.toLowerCase().includes('id da viagem/uber eats')`. -/
def isHeaderLine (l : String) : Bool :=
  jsIncludes (jsToLower l) tripHeaderPat

/-- `processCSVFile` after the line split: header search, then parse of
the retained lines; -1 yields the empty record list. -/
def processCSVLines (lines : List String) : Except String (List RawRecord) :=
  match findIndexJs isHeaderLine lines with
  | none => Except.ok []
  | some i => parseTable (lines.drop i)

def processCSVFile (content : String) : Except String (List RawRecord) :=
  processCSVLines (content.splitOn "\n")

/-! ## Ingester properties -/

theorem findIndexJs_none (p : String → Bool) :
    ∀ ls : List String, (∀ l ∈ ls, p l = false) → findIndexJs p ls = none := by
  intro ls h
  induction ls with
  | nil => rfl
  | cons l ls ih =>
    simp [findIndexJs, h l (by simp),
      ih (fun x hx => h x (by simp [hx]))]

theorem findIndexJs_append (p : String → Bool) (banners : List String)
    (header : String) (rows : List String)
    (hb : ∀ b ∈ banners, p b = false) (hh : p header = true) :
    findIndexJs p (banners ++ header :: rows) = some banners.length := by
  induction banners with
  | nil => simp [findIndexJs, hh]
  | cons b bs ih =>
    simp [findIndexJs, hb b (by simp),
      ih (fun x hx => hb x (by simp [hx]))]

theorem filter_of_no_empty (ls : List String) (h : ∀ l ∈ ls, l ≠ "") :
    ls.filter (fun l => !(l == "")) = ls := by
  induction ls with
  | nil => rfl
  | cons l ls ih =>
    have hl : (l == "") = false := beq_eq_false_iff_ne.mpr (h l (by simp))
    simp [List.filter_cons, hl, ih (fun x hx => h x (by simp [hx]))]

theorem mapRows_ok (cols : List String) (rows : List String)
    (h : ∀ r ∈ rows, (parseFields r).length = cols.length) :
    mapRows cols rows =
      Except.ok (rows.map (fun r => cols.zip (parseFields r))) := by
  induction rows with
  | nil => rfl
  | cons r rs ih =>
    unfold mapRows
    rw [if_pos (h r (by simp)), ih (fun x hx => h x (by simp [hx]))]
    simp

theorem zip_map_fst (l₁ l₂ : List String) (h : l₂.length = l₁.length) :
    (l₁.zip l₂).map Prod.fst = l₁ := by
  induction l₁ generalizing l₂ with
  | nil => simp
  | cons a l ih =>
    cases l₂ with
    | nil => simp at h
    | cons b l' =>
      simp only [List.zip_cons_cons, List.map_cons]
      rw [ih l' (by simpa using h)]

theorem isHeaderLine_ne_empty (l : String) (h : isHeaderLine l = true) :
    l ≠ "" := by
  intro he
  subst he
  exact absurd h (by decide)

/-- C3: for input lines made of banner lines (none containing the
trip-ID substring), then a header line containing it, then data rows of
matching field count, parsing succeeds and yields exactly one record per
data row in source order, each keyed by exactly the header field
names. -/
theorem c3_header_offset_parse (banners : List String) (header : String)
    (rows : List String)
    (hb : ∀ b ∈ banners, isHeaderLine b = false)
    (hh : isHeaderLine header = true)
    (hrow : ∀ r ∈ rows, r ≠ "" ∧
      (parseFields r).length = (parseFields header).length) :
    processCSVLines (banners ++ header :: rows) =
      Except.ok (rows.map (fun r => (parseFields header).zip (parseFields r))) ∧
    (rows.map (fun r => (parseFields header).zip (parseFields r))).length =
      rows.length ∧
    ∀ rec ∈ rows.map (fun r => (parseFields header).zip (parseFields r)),
      rec.map Prod.fst = parseFields header := by
  refine ⟨?_, List.length_map rows _, ?_⟩
  · unfold processCSVLines
    rw [findIndexJs_append isHeaderLine banners header rows hb hh]
    have hdrop : (banners ++ header :: rows).drop banners.length =
        header :: rows := List.drop_left banners (header :: rows)
    show parseTable ((banners ++ header :: rows).drop banners.length) = _
    rw [hdrop]
    unfold parseTable
    have hfilter : (header :: rows).filter (fun l => !(l == "")) =
        header :: rows := by
      refine filter_of_no_empty _ ?_
      intro l hl
      rcases List.mem_cons.mp hl with rfl | hl
      · exact isHeaderLine_ne_empty l hh
      · exact (hrow l hl).1
    rw [hfilter]
    exact mapRows_ok _ rows (fun r hr => (hrow r hr).2)
  · intro rec hrec
    obtain ⟨r, hr, rfl⟩ := List.mem_map.mp hrec
    exact zip_map_fst _ _ (hrow r hr).2

def demoBanners : List String := ["Relatorio gerado em 2024-01-01"]

def demoHeader : String := "ID da viagem/Uber Eats;Nome;Sobrenome;Grupo"

def demoRows : List String := ["T1;Ana;Silva;OPERACIONAL"]

theorem c3_header_offset_parse_witness :
    processCSVLines (demoBanners ++ demoHeader :: demoRows) =
      Except.ok (demoRows.map
        (fun r => (parseFields demoHeader).zip (parseFields r))) :=
  (c3_header_offset_parse demoBanners demoHeader demoRows
    (by decide) (by decide) (by decide)).1

/-- C7: when no line contains the trip-ID header substring
(lower-cased), parsing returns the empty record sequence and no
error. -/
theorem c7_no_header_yields_empty (lines : List String)
    (h : ∀ l ∈ lines, isHeaderLine l = false) :
    processCSVLines lines = Except.ok [] := by
  unfold processCSVLines
  rw [findIndexJs_none isHeaderLine lines h]

theorem c7_no_header_yields_empty_witness :
    processCSVLines ["Relatorio vazio", "sem dados hoje"] = Except.ok [] :=
  c7_no_header_yields_empty _ (by decide)

/-! ## File Locator (`getYesterdayFileName`, identical in all variants) -/

structure CivilDate where
  year : Int
  month : Nat
  day : Nat

def isLeapYear (y : Int) : Bool :=
  (y % 4 == 0 && y % 100 != 0) || y % 400 == 0

def daysInMonth (y : Int) (m : Nat) : Nat :=
  if m = 2 then (if isLeapYear y then 29 else 28)
  else if m = 4 ∨ m = 6 ∨ m = 9 ∨ m = 11 then 30
  else 31

abbrev validDate (d : CivilDate) : Prop :=
  1 ≤ d.month ∧ d.month ≤ 12 ∧ 1 ≤ d.day ∧ d.day ≤ daysInMonth d.year d.month

/-- Modelled from the spec: Date.prototype.setDate for arguments in
0..31 (the source calls it with getDate() - 1): the day-of-month is set
with calendar normalization, 0 meaning the last day of the previous
month. -/
def jsSetDate (d : CivilDate) (n : Nat) : CivilDate :=
  if n = 0 then
    if d.month = 1 then ⟨d.year - 1, 12, 31⟩
    else ⟨d.year, d.month - 1, daysInMonth d.year (d.month - 1)⟩
  else ⟨d.year, d.month, n⟩

/-- `getYesterdayFileName` (src/src/index.ts lines 65-72, identical in
part_001 and part_002): mutate the run date by setDate(getDate() - 1),
then format year, 2-padded month and 2-padded day.  `month` is stored
1-based here, absorbing the source's `getMonth() + 1`. -/
def getYesterdayFileName (today : CivilDate) : String :=
  let d := jsSetDate today (today.day - 1)
  "daily_trips-" ++ toString d.year ++ "_" ++
    jsPadStart (toString d.month) 2 '0' ++ "_" ++
    jsPadStart (toString d.day) 2 '0' ++ ".csv"

/-- Following the claim wording: the calendar day immediately preceding
`d`. -/
def specPrecedingDay (d : CivilDate) : CivilDate :=
  if d.day = 1 then
    if d.month = 1 then ⟨d.year - 1, 12, 31⟩
    else ⟨d.year, d.month - 1, daysInMonth d.year (d.month - 1)⟩
  else ⟨d.year, d.month, d.day - 1⟩

/-- Following the claim wording: the `%02d` field format. -/
def pad2 (n : Nat) : String :=
  if n < 10 then "0" ++ toString n else toString n

/-- Following the claim wording:
`daily_trips-{year}_{month:02d}_{day:02d}.csv`. -/
def specFileName (d : CivilDate) : String :=
  "daily_trips-" ++ toString d.year ++ "_" ++ pad2 d.month ++ "_" ++
    pad2 d.day ++ ".csv"

/-! ## File Locator properties -/

theorem daysInMonth_le (y : Int) (m : Nat) : daysInMonth y m ≤ 31 := by
  unfold daysInMonth
  split_ifs <;> omega

theorem padStart_eq_pad2 : ∀ n : Nat, n < 32 →
    jsPadStart (toString n) 2 '0' = pad2 n := by decide

theorem jsSetDate_pred (d : CivilDate) (h : validDate d) :
    jsSetDate d (d.day - 1) = specPrecedingDay d := by
  obtain ⟨h1, h2, h3, h4⟩ := h
  unfold jsSetDate specPrecedingDay
  by_cases hd : d.day = 1
  · simp [hd]
  · have hne : ¬(d.day - 1 = 0) := by omega
    simp [hne, hd]

/-- C6: the computed target filename is
`daily_trips-{year}_{month:02d}_{day:02d}.csv` for the calendar day
immediately preceding the run date (local calendar fields). -/
theorem c6_yesterday_filename (d : CivilDate) (h : validDate d) :
    getYesterdayFileName d = specFileName (specPrecedingDay d) := by
  have hmonth : (specPrecedingDay d).month < 32 := by
    obtain ⟨h1, h2, h3, h4⟩ := h
    unfold specPrecedingDay
    split_ifs <;> simp <;> omega
  have hday : (specPrecedingDay d).day < 32 := by
    obtain ⟨h1, h2, h3, h4⟩ := h
    have hle := daysInMonth_le d.year d.month
    have hle2 := daysInMonth_le d.year (d.month - 1)
    unfold specPrecedingDay
    split_ifs <;> simp <;> omega
  unfold getYesterdayFileName specFileName
  rw [jsSetDate_pred d h]
  dsimp only
  rw [padStart_eq_pad2 _ hmonth, padStart_eq_pad2 _ hday]

theorem c6_yesterday_filename_witness :
    getYesterdayFileName ⟨2024, 3, 1⟩ =
      specFileName (specPrecedingDay ⟨2024, 3, 1⟩) :=
  c6_yesterday_filename ⟨2024, 3, 1⟩ (by decide)

/-! ## Sink Adapter — tabular push (src/src/index.ts)

`sendToGoogleSheets` builds one value row per trip over the declared
column order; the HTTP POST itself is outside the pure model. -/

def COLUMNS : List String :=
  ["ID da viagem/Uber Eats", "Registro de data e hora da transação (UTC)",
   "Data de chegada (UTC)", "Hora de chegada (UTC)",
   "Data de chegada (local)", "Hora de chegada (local)", "Nome",
   "Sobrenome", "Grupo", "Serviço", "Cidade", "País", "Distância (mi)",
   "Duração (min)", "Endereço de partida", "Endereço de destino",
   "Valor total: BRL", "Status de Verificação"]

/-- One value row of the Sheets payload: `COLUMNS.map((c) => t[c] || '')`
(src/src/index.ts lines 113-115). -/
def sheetRow (t : Trip) : List String :=
  COLUMNS.map (fun c => fieldOrEmpty t c)

/-- The `values` array posted by `sendToGoogleSheets`: every input
record contributes one row, empty trip IDs included. -/
def sendToGoogleSheetsValues (trips : List Trip) : List (List String) :=
  trips.map sheetRow

/-! ## Numeric coercion (part_001 `saveTripsToFirestore`) -/

def digitsToNat (ds : List Char) : Nat :=
  ds.foldl (fun acc c => 10 * acc + (c.toNat - '0'.toNat)) 0

/-- Decimal literal with optional fractional part, `none` for NaN. -/
def parseUnsignedDec (cs : List Char) : Option ℚ :=
  let intPart := cs.takeWhile Char.isDigit
  let rest := cs.dropWhile Char.isDigit
  match rest with
  | [] => if intPart.isEmpty then none else some (digitsToNat intPart : ℚ)
  | '.' :: frac =>
    if frac.all Char.isDigit && !(intPart.isEmpty && frac.isEmpty) then
      some ((digitsToNat intPart : ℚ) +
        (digitsToNat frac : ℚ) / ((10 : ℚ) ^ frac.length))
    else none
  | _ => none

/-- Modelled from the spec: the JS Number() string coercion used by the
source, restricted to the decimal forms appearing in the export
(whitespace-trimmed; the empty string is 0; optional sign; digits with
an optional fractional part; anything else is NaN, encoded `none`). -/
def jsNumber (s : String) : Option ℚ :=
  let t := jsTrim s
  if t = "" then some 0
  else
    match t.data with
    | '-' :: rest => (parseUnsignedDec rest).map (fun q => -q)
    | '+' :: rest => parseUnsignedDec rest
    | cs => parseUnsignedDec cs

/-- `Number(x)` where `x` may be `undefined` (Number(undefined) = NaN). -/
def jsNumberOfVal : Option String → Option ℚ
  | none => none
  | some s => jsNumber s

/-- The `|| 0` fallback: NaN and 0 are falsy, so both map to 0. -/
def jsOrZero : Option ℚ → ℚ
  | none => 0
  | some q => if q = 0 then 0 else q

/-- The trip identifier used as document key:
`trip['ID da viagem/Uber Eats']`, with the missing and the empty case
both falsy in the `if (!tripId) continue` guard. -/
def tripIdOf (t : Trip) : String :=
  fieldOrEmpty t "ID da viagem/Uber Eats"

/-- The document written by `saveTripsToFirestore` (part_001 lines
119-140): raw string fields, numeric coercion for distance and
duration, comma-to-dot rewrite before coercing the total value, and the
run timestamp. -/
structure FsDocNum where
  tripId : String
  requestDate : Option String
  requestTime : Option String
  arrivalTime : Option String
  fullName : Option String
  group : Option String
  service : Option String
  city : Option String
  country : Option String
  distanceMi : ℚ
  durationMin : ℚ
  originAddress : Option String
  destinationAddress : Option String
  totalValueBRL : ℚ
  createdAt : Nat

def mkFsDocNum (now : Nat) (t : Trip) : FsDocNum :=
  { tripId := tripIdOf t
    requestDate := getField t "Data da solicitação (local)"
    requestTime := getField t "Hora da solicitação (local)"
    arrivalTime := getField t "Hora de chegada (local)"
    fullName := getField t "Nome Completo"
    group := getField t "Grupo"
    service := getField t "Serviço"
    city := getField t "Cidade"
    country := getField t "País"
    distanceMi := jsOrZero (jsNumberOfVal (getField t "Distância (mi)"))
    durationMin := jsOrZero (jsNumberOfVal (getField t "Duração (min)"))
    originAddress := getField t "Endereço de partida"
    destinationAddress := getField t "Endereço de destino"
    totalValueBRL := jsOrZero (jsNumberOfVal
      ((getField t "Valor total: BRL").map jsReplaceCommaDot))
    createdAt := now }

/-! ## Sink Adapter — document-store upsert (part_001)

The destination collection keyed by trip ID.  `saveTripsToFirestore`
stages one `set(ref, data, { merge: true })` per record with a
non-empty trip ID and commits the single batch; since every field of
the document model is written, the merge acts as a keyed replace.  The
server clock is the explicit `now` parameter. -/

abbrev TripStore := String → Option FsDocNum

def setTrip (now : Nat) (s : TripStore) (t : Trip) : TripStore :=
  if tripIdOf t = "" then s
  else fun k => if k = tripIdOf t then some (mkFsDocNum now t) else s k

/-- `saveTripsToFirestore` (part_001 lines 108-144) as a store
transformer: staged writes applied in staging order by the commit. -/
def saveTripsToFirestore (now : Nat) (s : TripStore) (trips : List Trip) :
    TripStore :=
  trips.foldl (setTrip now) s

/-- The operation list staged into the single write batch of
`saveTripsToFirestore`: no chunking occurs — every record with a
non-empty trip ID goes into the one batch committed at the end. -/
def saveBatchOps (now : Nat) (trips : List Trip) : List (String × FsDocNum) :=
  trips.foldl
    (fun ops t =>
      if tripIdOf t = "" then ops
      else ops ++ [(tripIdOf t, mkFsDocNum now t)]) []

/-- The last staged write for key `k`, if any (later records override
earlier ones with the same trip ID). -/
def lastWrite (now : Nat) : List Trip → String → Option FsDocNum
  | [], _ => none
  | t :: ts, k =>
    (lastWrite now ts k).or
      (if tripIdOf t ≠ "" ∧ tripIdOf t = k then some (mkFsDocNum now t)
       else none)

/-! ## Sink Adapter — document-store upsert (part_002 `sendToFirestore`)

The document fields here are the raw strings (no numeric coercion). -/

structure FsDocStr where
  tripId : Option String
  requestDate : Option String
  requestTime : Option String
  arrivalTime : Option String
  fullName : Option String
  group : Option String
  service : Option String
  city : Option String
  country : Option String
  distance : Option String
  duration : Option String
  startAddress : Option String
  endAddress : Option String
  totalValue : Option String
  createdAt : Nat
  syncedAt : Nat

def mkFsDocStr (now : Nat) (t : Trip) : FsDocStr :=
  { tripId := getField t "ID da viagem/Uber Eats"
    requestDate := getField t "Data da solicitação (local)"
    requestTime := getField t "Hora da solicitação (local)"
    arrivalTime := getField t "Hora de chegada (local)"
    fullName := getField t "Nome Completo"
    group := getField t "Grupo"
    service := getField t "Serviço"
    city := getField t "Cidade"
    country := getField t "País"
    distance := getField t "Distância (mi)"
    duration := getField t "Duração (min)"
    startAddress := getField t "Endereço de partida"
    endAddress := getField t "Endereço de destino"
    totalValue := getField t "Valor total: BRL"
    createdAt := now
    syncedAt := now }

/-- The loop state of `sendToFirestore` (part_002 lines 138-187): the
single `batch` object (`ops`), the running `batchCount`, and the list
of commit snapshots pushed into `batches`.  The `batch` is a `const`
created once before the loop and never replaced after a commit, so
`ops` keeps growing across commits. -/
structure FsBatchState where
  ops : List (String × FsDocStr)
  count : Nat
  commits : List (List (String × FsDocStr))

def stageTrip (now : Nat) (st : FsBatchState) (t : Trip) : FsBatchState :=
  if tripIdOf t = "" then st
  else
    let ops := st.ops ++ [(tripIdOf t, mkFsDocStr now t)]
    let count := st.count + 1
    if count = 500 then ⟨ops, 0, st.commits ++ [ops]⟩
    else ⟨ops, count, st.commits⟩

/-- `sendToFirestore` (part_002 lines 138-187), returning the committed
batch snapshots in commit order: a commit is pushed every time
`batchCount` reaches 500 and once at the end when operations are
pending; each snapshot is the full operation list staged so far on the
one batch object. -/
def sendToFirestore (now : Nat) (trips : List Trip) :
    List (List (String × FsDocStr)) :=
  if trips.isEmpty then []
  else
    let st := trips.foldl (stageTrip now) ⟨[], 0, []⟩
    if st.count ≠ 0 then st.commits ++ [st.ops] else st.commits

/-- The operations staged on the batch object over a whole run. -/
def stagedOps (now : Nat) (trips : List Trip) : List (String × FsDocStr) :=
  (trips.foldl (stageTrip now) ⟨[], 0, []⟩).ops

/-! ## Upsert idempotency (C2) -/

theorem optOr_assoc {α : Type} (a b c : Option α) :
    (a.or b).or c = a.or (b.or c) := by
  cases a <;> rfl

theorem optOr_self {α : Type} (a : Option α) : a.or a = a := by
  cases a <;> rfl

theorem setTrip_eq_or (now : Nat) (s : TripStore) (t : Trip) (k : String) :
    setTrip now s t k =
      (if tripIdOf t ≠ "" ∧ tripIdOf t = k then some (mkFsDocNum now t)
       else none).or (s k) := by
  unfold setTrip
  by_cases h1 : tripIdOf t = ""
  · rw [if_pos h1, if_neg (fun hc => hc.1 h1)]
    rfl
  · rw [if_neg h1]
    by_cases h2 : k = tripIdOf t
    · dsimp only
      rw [if_pos h2, if_pos ⟨h1, h2.symm⟩]
      rfl
    · dsimp only
      rw [if_neg h2, if_neg (fun hc => h2 hc.2.symm)]
      rfl

theorem save_eq_lastWrite (now : Nat) :
    ∀ (trips : List Trip) (s : TripStore) (k : String),
      saveTripsToFirestore now s trips k = (lastWrite now trips k).or (s k) := by
  intro trips
  induction trips with
  | nil => intro s k; rfl
  | cons t ts ih =>
    intro s k
    show saveTripsToFirestore now (setTrip now s t) ts k = _
    rw [ih (setTrip now s t) k, setTrip_eq_or]
    show _ = ((lastWrite now ts k).or _).or (s k)
    rw [optOr_assoc]

/-- C2: the document-store upsert is idempotent — applying the same
record sequence twice (with the same server clock) leaves the keyed
store in exactly the state of applying it once; documents are keyed by
trip ID, so no duplicates can arise. -/
theorem c2_upsert_idempotent (now : Nat) (s : TripStore) (trips : List Trip) :
    saveTripsToFirestore now (saveTripsToFirestore now s trips) trips =
      saveTripsToFirestore now s trips := by
  funext k
  rw [save_eq_lastWrite now trips (saveTripsToFirestore now s trips) k,
    save_eq_lastWrite now trips s k, ← optOr_assoc, optOr_self]

/-! ## Staged-write characterizations (C8) -/

theorem stageTrip_ops (now : Nat) (st : FsBatchState) (t : Trip)
    (h : tripIdOf t ≠ "") :
    (stageTrip now st t).ops = st.ops ++ [(tripIdOf t, mkFsDocStr now t)] := by
  unfold stageTrip
  rw [if_neg h]
  dsimp only
  split <;> rfl

theorem foldl_stageTrip_ops (now : Nat) :
    ∀ (trips : List Trip) (st : FsBatchState),
      (trips.foldl (stageTrip now) st).ops =
        st.ops ++ (trips.filter (fun t => !(tripIdOf t == ""))).map
          (fun t => (tripIdOf t, mkFsDocStr now t)) := by
  intro trips
  induction trips with
  | nil => intro st; simp
  | cons t ts ih =>
    intro st
    show (ts.foldl (stageTrip now) (stageTrip now st t)).ops = _
    rw [ih (stageTrip now st t)]
    by_cases h : tripIdOf t = ""
    · have hb : (tripIdOf t == "") = true := by simp [h]
      have hst : stageTrip now st t = st := by
        unfold stageTrip
        rw [if_pos h]
      rw [hst]
      simp [List.filter_cons, hb]
    · have hb : (tripIdOf t == "") = false := beq_eq_false_iff_ne.mpr h
      rw [stageTrip_ops now st t h]
      simp [List.filter_cons, hb]

/-- C8: the document-store path stages a write exactly for each record
with a non-empty trip identifier (records with a missing or empty
identifier are skipped, not an error), while the tabular-push payload
has one row for every input record, empty identifiers included. -/
theorem c8_key_skip_vs_sheets (now : Nat) (trips : List Trip) :
    stagedOps now trips =
      (trips.filter (fun t => !(tripIdOf t == ""))).map
        (fun t => (tripIdOf t, mkFsDocStr now t)) ∧
    (sendToGoogleSheetsValues trips).length = trips.length := by
  constructor
  · have h := foldl_stageTrip_ops now trips ⟨[], 0, []⟩
    simpa [stagedOps] using h
  · simp [sendToGoogleSheetsValues]

/-! ## Numeric coercion properties (C10) -/

theorem jsOrZero_eq_getD (o : Option String) :
    jsOrZero (jsNumberOfVal o) = (o.bind jsNumber).getD 0 := by
  cases o with
  | none => rfl
  | some s =>
    show jsOrZero (jsNumber s) = (jsNumber s).getD 0
    cases jsNumber s with
    | none => rfl
    | some q =>
      show (if q = 0 then 0 else q) = q
      by_cases hq : q = 0
      · rw [if_pos hq, hq]
      · rw [if_neg hq]

/-- C10: in the numeric document-store variant the stored distance and
duration are the JS numeric coercion of the source strings and the
stored total value is the coercion after replacing the first comma by a
dot; a missing, empty or non-numeric source value is stored as 0 and
coercion never fails the run (the builder is total). -/
theorem c10_numeric_coercion (now : Nat) (t : Trip) :
    (mkFsDocNum now t).distanceMi =
      ((getField t "Distância (mi)").bind jsNumber).getD 0 ∧
    (mkFsDocNum now t).durationMin =
      ((getField t "Duração (min)").bind jsNumber).getD 0 ∧
    (mkFsDocNum now t).totalValueBRL =
      (((getField t "Valor total: BRL").map jsReplaceCommaDot).bind
        jsNumber).getD 0 ∧
    jsNumber "" = some 0 ∧
    jsNumber "abc" = none ∧
    jsNumber "12,5" = none ∧
    jsNumber (jsReplaceCommaDot "12,5") = some (25 / 2) := by
  refine ⟨jsOrZero_eq_getD _, jsOrZero_eq_getD _, jsOrZero_eq_getD _,
    by decide, by decide, by decide, ?_⟩
  have h : jsNumber (jsReplaceCommaDot "12,5") =
      some ((12 : ℚ) + 5 / 10 ^ 1) := rfl
  rw [h]
  norm_num

/-! ## Batch commit sizes (C1)

Shape of the `sendToFirestore` loop state after staging `n` records
with non-empty trip IDs: the one batch object has accumulated all `n`
operations, the counter is `n % 500`, and the commit pushed at every
500th staged record snapshots everything staged so far — so the j-th
intermediate commit carries `500 * (j + 1)` operations, not 500. -/

theorem foldl_stageTrip_shape (now : Nat) (trips : List Trip)
    (hne : ∀ t ∈ trips, tripIdOf t ≠ "") :
    (trips.foldl (stageTrip now) ⟨[], 0, []⟩).ops.length = trips.length ∧
    (trips.foldl (stageTrip now) ⟨[], 0, []⟩).count = trips.length % 500 ∧
    (trips.foldl (stageTrip now) ⟨[], 0, []⟩).commits.map List.length =
      (List.range (trips.length / 500)).map (fun j => 500 * (j + 1)) := by
  induction trips using List.reverseRecOn with
  | nil => exact ⟨rfl, rfl, rfl⟩
  | append_singleton ts t ih =>
    have hts : ∀ x ∈ ts, tripIdOf x ≠ "" := fun x hx => hne x (by simp [hx])
    have ht : tripIdOf t ≠ "" := hne t (by simp)
    obtain ⟨ih1, ih2, ih3⟩ := ih hts
    rw [List.foldl_append]
    set st := ts.foldl (stageTrip now) ⟨[], 0, []⟩ with hst
    have hmod : ts.length % 500 < 500 := Nat.mod_lt _ (by omega)
    have hstep : List.foldl (stageTrip now) st [t] = stageTrip now st t := rfl
    rw [hstep]
    have hdef : stageTrip now st t =
        if st.count + 1 = 500 then
          (⟨st.ops ++ [(tripIdOf t, mkFsDocStr now t)], 0,
            st.commits ++ [st.ops ++ [(tripIdOf t, mkFsDocStr now t)]]⟩ :
            FsBatchState)
        else
          (⟨st.ops ++ [(tripIdOf t, mkFsDocStr now t)], st.count + 1,
            st.commits⟩ : FsBatchState) := by
      unfold stageTrip
      rw [if_neg ht]
    rw [hdef]
    by_cases hfull : st.count + 1 = 500
    · rw [if_pos hfull]
      rw [ih2] at hfull
      have hdiv : (ts.length + 1) / 500 = ts.length / 500 + 1 := by omega
      have hmul : 500 * (ts.length / 500 + 1) = ts.length + 1 := by omega
      refine ⟨by simp [ih1], by simp; omega, ?_⟩
      show (st.commits ++ [st.ops ++ [(tripIdOf t, mkFsDocStr now t)]]).map
          List.length = _
      simp only [List.length_append, List.length_singleton]
      rw [List.map_append, ih3, hdiv, List.range_succ, List.map_append]
      simp [ih1, hmul]
    · rw [if_neg hfull]
      rw [ih2] at hfull
      have hdiv : (ts.length + 1) / 500 = ts.length / 500 := by omega
      refine ⟨by simp [ih1], by simp [ih2]; omega, ?_⟩
      show st.commits.map List.length = _
      simp only [List.length_append, List.length_singleton]
      rw [hdiv]
      exact ih3

theorem foldl_saveOps (now : Nat) (trips : List Trip)
    (acc : List (String × FsDocNum)) :
    trips.foldl
      (fun ops t =>
        if tripIdOf t = "" then ops
        else ops ++ [(tripIdOf t, mkFsDocNum now t)]) acc =
      acc ++ (trips.filter (fun t => !(tripIdOf t == ""))).map
        (fun t => (tripIdOf t, mkFsDocNum now t)) := by
  induction trips generalizing acc with
  | nil => simp
  | cons t ts ih =>
    by_cases h : tripIdOf t = ""
    · have hb : (tripIdOf t == "") = true := by simp [h]
      simp [List.foldl_cons, h, List.filter_cons, hb, ih]
    · have hb : (tripIdOf t == "") = false := beq_eq_false_iff_ne.mpr h
      simp [List.foldl_cons, h, List.filter_cons, hb, ih, List.append_assoc]

def manyTrips (n : Nat) : List Trip :=
  List.replicate n [("ID da viagem/Uber Eats", "T")]

theorem manyTrips_ids (n : Nat) : ∀ t ∈ manyTrips n, tripIdOf t ≠ "" := by
  intro t ht
  rw [List.eq_of_mem_replicate ht]
  decide

theorem length_manyTrips (n : Nat) : (manyTrips n).length = n :=
  List.length_replicate n _

theorem isEmpty_false_of_length_ne {α : Type} {l : List α}
    (h : l.length ≠ 0) : l.isEmpty = false := by
  cases l with
  | nil => simp at h
  | cons a l => rfl

/-- C1 fails on the code: for 1200 staged records the three commits of
`sendToFirestore` carry 500, 1000 and 1200 operations (the batch object
is never re-created after a commit, so every later commit re-submits
all earlier staged writes), not 500, 500 and 200; and the other
document-store variant `saveTripsToFirestore` stages all 1200
operations into one single batch, with no chunking at all. -/
theorem c1_batch_sizes_violation :
    (sendToFirestore 0 (manyTrips 1200)).map List.length =
      [500, 1000, 1200] ∧
    (saveBatchOps 0 (manyTrips 1200)).length = 1200 := by
  constructor
  · obtain ⟨h1, h2, h3⟩ :=
      foldl_stageTrip_shape 0 (manyTrips 1200) (manyTrips_ids 1200)
    rw [length_manyTrips] at h1 h2 h3
    unfold sendToFirestore
    have he : (manyTrips 1200).isEmpty = false :=
      isEmpty_false_of_length_ne (by rw [length_manyTrips]; omega)
    simp only [he, Bool.false_eq_true, if_false]
    rw [if_pos (by rw [h2]; decide)]
    rw [List.map_append, h3, List.map_singleton, h1]
    decide
  · rw [show saveBatchOps 0 (manyTrips 1200) =
      [] ++ ((manyTrips 1200).filter
        (fun t => !(tripIdOf t == ""))).map
        (fun t => (tripIdOf t, mkFsDocNum 0 t)) from
      foldl_saveOps 0 (manyTrips 1200) []]
    rw [List.nil_append, List.length_map]
    rw [List.filter_eq_self.mpr]
    · exact length_manyTrips 1200
    · intro a ha
      rw [List.eq_of_mem_replicate ha]
      decide

end UberSync
